/-
Verification of the evaluation core of the sputnikvm Ethereum-style VM
(`src/sputnikvm/src/vm/eval/mod.rs` and `src/sputnikvm/src/vm/eval/run/mod.rs`).

The two files above are embedded directly.  The submodules they use
(`check`, `cost`, `utils`, the `Stack`/`Memory`/`AccountState`/`PC` types)
are not part of the provided sources; those are modelled from the
specification, and each such definition carries a doc comment saying so.

Rust panics (`unwrap`, `panic!`, `unimplemented!`) are modelled by `Option`:
a function that would panic returns `none`.
-/
import Mathlib

set_option maxHeartbeats 1000000
set_option maxRecDepth 100000

namespace SputnikVM

/-- 256-bit machine words, as in `utils::bigint::M256`: natural numbers,
with every arithmetic operation reduced modulo `2^256`. -/
abbrev M256 := Nat

/-- The modulus of 256-bit words. -/
def M256.modulus : Nat := 2 ^ 256

/-- Wrap an integer into a 256-bit word (two's-complement encoding of
negative numbers). -/
def M256.ofInt (i : Int) : M256 := (i % ((2 : Int) ^ 256)).toNat

/-- Interpret a 256-bit word as a signed integer (two's complement),
as `utils::bigint::MI256` does. -/
def M256.toSigned (a : M256) : Int :=
  if a < 2 ^ 255 then (a : Int) else (a : Int) - (2 : Int) ^ 256

def M256.add (a b : M256) : M256 := (a + b) % M256.modulus

def M256.sub (a b : M256) : M256 := (a + M256.modulus - b % M256.modulus) % M256.modulus

def M256.mul (a b : M256) : M256 := (a * b) % M256.modulus

/-- Unsigned division; division by zero yields zero. -/
def M256.div (a b : M256) : M256 := if b = 0 then 0 else a / b

/-- Unsigned remainder; modulo by zero yields zero. -/
def M256.rem (a b : M256) : M256 := if b = 0 then 0 else a % b

/-- Signed division (`MI256` division), truncated toward zero. -/
def M256.sdiv (a b : M256) : M256 :=
  if b = 0 then 0 else M256.ofInt (Int.tdiv (M256.toSigned a) (M256.toSigned b))

/-- Signed remainder (`MI256` remainder). -/
def M256.smod (a b : M256) : M256 :=
  if b = 0 then 0 else M256.ofInt (Int.tmod (M256.toSigned a) (M256.toSigned b))

def M256.bAnd (a b : M256) : M256 := a &&& b

def M256.bOr (a b : M256) : M256 := a ||| b

def M256.bXor (a b : M256) : M256 := a ^^^ b

/-- Encode a boolean comparison result as a word. -/
def boolWord (b : Bool) : M256 := if b then 1 else 0

/-- Gas, as in `utils::gas::Gas`: a signed arbitrary-precision integer. -/
abbrev Gas := Int

/-- Addresses are 160-bit; a word converts by truncation. -/
def M256.toAddress (a : M256) : Nat := a % 2 ^ 160

/-- Errors of the bytecode decoder `PC` (`vm::errors::PCError`). -/
inductive PCError where
  | InvalidOpcode : PCError
  | BadJumpDest : PCError
  | PCOverflow : PCError
deriving DecidableEq, Repr

/-- Terminal machine errors (`vm::errors::MachineError`). -/
inductive MachineError where
  | StackUnderflow : MachineError
  | StackOverflow : MachineError
  | EmptyGas : MachineError
  | CallstackOverflow : MachineError
  | InsufficientBalance : MachineError
  | InvalidRange : MachineError
  | PC : PCError → MachineError
deriving DecidableEq, Repr

/-- Recoverable pull-protocol errors (`vm::errors::RequireError`). -/
inductive RequireError where
  | Account : Nat → RequireError
  | AccountCode : Nat → RequireError
  | AccountStorage : Nat → M256 → RequireError
  | Blockhash : M256 → RequireError
deriving DecidableEq, Repr

/-- Union of the two error axes (`vm::errors::EvalError`). -/
inductive EvalError where
  | Machine : MachineError → EvalError
  | Require : RequireError → EvalError
deriving DecidableEq, Repr

/-- Errors of the commit interface (`vm::errors::CommitError`). -/
inductive CommitError where
  | AlreadyCommitted : CommitError
  | InvalidCommitment : CommitError
deriving DecidableEq, Repr

/-- The instruction set, exactly the variants matched in `run_opcode`. -/
inductive Instruction where
  | STOP | ADD | MUL | SUB | DIV | SDIV | MOD | SMOD
  | ADDMOD | MULMOD | EXP | SIGNEXTEND
  | LT | GT | SLT | SGT | EQ | ISZERO | AND | OR | XOR | NOT | BYTE
  | SHA3
  | ADDRESS | BALANCE | ORIGIN | CALLER | CALLVALUE
  | CALLDATALOAD | CALLDATASIZE | CALLDATACOPY
  | CODESIZE | CODECOPY | GASPRICE | EXTCODESIZE | EXTCODECOPY
  | BLOCKHASH | COINBASE | TIMESTAMP | NUMBER | DIFFICULTY | GASLIMIT
  | POP | MLOAD | MSTORE | MSTORE8 | SLOAD | SSTORE
  | JUMP | JUMPI | PC | MSIZE | GAS | JUMPDEST
  | PUSH : M256 → Instruction
  | DUP : Nat → Instruction
  | SWAP : Nat → Instruction
  | LOG : Nat → Instruction
  | CREATE | CALL | CALLCODE | RETURN | DELEGATECALL | SUICIDE

/-- Modelled from the spec: `Stack` is an ordered sequence of 256-bit
words with a hard cap of 1024, indices counting from the top (head). -/
abbrev Stack := List M256

/-- Modelled from the spec: push fails (stack overflow) when the stack
already holds 1024 words. -/
def Stack.push (s : Stack) (v : M256) : Option Stack :=
  if s.length ≥ 1024 then none else some (v :: s)

/-- Modelled from the spec: pop fails (stack underflow) on an empty stack. -/
def Stack.pop (s : Stack) : Option (M256 × Stack) :=
  match s with
  | [] => none
  | v :: rest => some (v, rest)

/-- Modelled from the spec: read the word at depth `k` from the top. -/
def Stack.peek (s : Stack) (k : Nat) : Option M256 := s.get? k

/-- Modelled from the spec: overwrite the word at depth `k` from the top. -/
def Stack.set (s : Stack) (k : Nat) (v : M256) : Option Stack :=
  if k < s.length then some (List.set s k v) else none

/-- Modelled from the spec: `Memory` is a byte-addressed region read with
zero-padding and extended with zero bytes on write. -/
abbrev Memory := List Nat

/-- Modelled from the spec: reading past the touched region yields zero. -/
def Memory.readByte (m : Memory) (i : Nat) : Nat := (m.get? i).getD 0

/-- Modelled from the spec: a write extends the region with zero bytes as
needed. -/
def Memory.writeByte (m : Memory) (i b : Nat) : Memory :=
  let m' := if m.length < i + 1 then m ++ List.replicate (i + 1 - m.length) 0 else m
  m'.set i b

/-- Modelled from the spec: read a 32-byte big-endian word at `i`. -/
def Memory.readWord (m : Memory) (i : Nat) : M256 :=
  (List.range 32).foldl (fun acc j => acc * 256 + m.readByte (i + j)) 0

/-- Modelled from the spec: write a 32-byte big-endian word at `i`. -/
def Memory.writeWord (m : Memory) (i : Nat) (v : M256) : Memory :=
  (List.range 32).foldl (fun mm j => mm.writeByte (i + j) (v / 256 ^ (31 - j) % 256)) m

/-- Modelled from the spec: per-contract storage, a mapping from 256-bit
keys to 256-bit values; unset keys read as zero. -/
abbrev Storage := List (M256 × M256)

def Storage.read (s : Storage) (k : M256) : M256 :=
  match s.find? (fun p => p.1 = k) with
  | some p => p.2
  | none => 0

def Storage.write (s : Storage) (k v : M256) : Storage :=
  (k, v) :: s.filter (fun p => p.1 ≠ k)

/-- Modelled from the spec: one cached account of the world view. -/
structure Account where
  balance : M256
  nonce : M256
  code : List Nat
  storage : Storage
deriving DecidableEq, Repr

/-- Modelled from the spec: `AccountState` is a write-through cache keyed
by address; accounts enter only via `commit`, and a read of an uncommitted
account fails (surfaced as a `RequireError`). -/
abbrev AccountState := List (Nat × Account)

def AccountState.lookup (s : AccountState) (a : Nat) : Option Account :=
  (s.find? (fun p => p.1 = a)).map Prod.snd

def AccountState.balance (s : AccountState) (a : Nat) : Option M256 :=
  (s.lookup a).map Account.balance

def AccountState.code (s : AccountState) (a : Nat) : Option (List Nat) :=
  (s.lookup a).map Account.code

def AccountState.nonceOf (s : AccountState) (a : Nat) : Option M256 :=
  (s.lookup a).map Account.nonce

def AccountState.upsert (s : AccountState) (a : Nat) (acc : Account) : AccountState :=
  (a, acc) :: s.filter (fun p => p.1 ≠ a)

/-- Modelled from the spec: debit an account's balance (wrapping). -/
def AccountState.decrease_balance (s : AccountState) (a : Nat) (v : M256) : AccountState :=
  match s.lookup a with
  | some acc => s.upsert a { acc with balance := M256.sub acc.balance v }
  | none => s

/-- Modelled from the spec: credit an account's balance (wrapping);
an unknown account is materialized with that balance. -/
def AccountState.increase_balance (s : AccountState) (a : Nat) (v : M256) : AccountState :=
  match s.lookup a with
  | some acc => s.upsert a { acc with balance := M256.add acc.balance v }
  | none => s.upsert a { balance := v, nonce := 0, code := [], storage := [] }

/-- Modelled from the spec: materialize a new account with the transferred
balance and the given code. -/
def AccountState.create (s : AccountState) (a : Nat) (v : M256) (code : List Nat) :
    AccountState :=
  s.upsert a { balance := v, nonce := 0, code := code, storage := [] }

def AccountState.storage_read (s : AccountState) (a : Nat) (k : M256) : Option M256 :=
  (s.lookup a).map (fun acc => acc.storage.read k)

def AccountState.storage_write (s : AccountState) (a : Nat) (k v : M256) :
    Option AccountState :=
  (s.lookup a).map (fun acc => s.upsert a { acc with storage := acc.storage.write k v })

/-- Modelled from the spec: account commitments supplied by the driver in
response to a `RequireError::Account`. -/
inductive AccountCommitment where
  | Full : Nat → M256 → M256 → List Nat → AccountCommitment
deriving DecidableEq, Repr

/-- Modelled from the spec: idempotent population of the account cache;
fails with `AlreadyCommitted` when the address is present. -/
def AccountState.commit (s : AccountState) (c : AccountCommitment) :
    Except CommitError AccountState :=
  match c with
  | .Full a bal non code =>
    match s.lookup a with
    | some _ => .error .AlreadyCommitted
    | none => .ok (s.upsert a { balance := bal, nonce := non, code := code, storage := [] })

/-- Modelled from the spec: `BlockhashState` maps block numbers to hashes,
populated by `commit`; reading an uncommitted number fails. -/
abbrev BlockhashState := List (M256 × M256)

def BlockhashState.get (s : BlockhashState) (n : M256) : Option M256 :=
  (s.find? (fun p => p.1 = n)).map Prod.snd

def BlockhashState.commit (s : BlockhashState) (n h : M256) :
    Except CommitError BlockhashState :=
  match s.get n with
  | some _ => .error .AlreadyCommitted
  | none => .ok ((n, h) :: s)

/-- One call-frame's invariant inputs (`vm::Context`). -/
structure Context where
  address : Nat
  caller : Nat
  origin : Nat
  value : M256
  data : List Nat
  code : List Nat
  gas_price : M256
  gas_limit : Gas
deriving DecidableEq, Repr

/-- Block-level constants (`vm::BlockHeader`). -/
structure BlockHeader where
  coinbase : Nat
  timestamp : M256
  number : M256
  difficulty : M256
  gas_limit : M256
deriving DecidableEq, Repr

/-- Modelled from the spec: a fork/configuration record; represented by a
single feature flag since its fields are not specified further. -/
structure Patch where
  homestead : Bool
deriving DecidableEq, Repr

/-- A log record appended by the `LOG{0..4}` opcodes (`vm::Log`). -/
structure Log where
  address : Nat
  topics : List M256
  data : List Nat
deriving DecidableEq, Repr

/-- A VM state without PC (`eval::State`), with the two generic container
parameters `M`/`S` instantiated at the modelled `Memory`/`Storage`. -/
structure State where
  memory : Memory
  stack : Stack
  context : Context
  block : BlockHeader
  patch : Patch
  out : List Nat
  memory_cost : Gas
  used_gas : Gas
  refunded_gas : Gas
  account_state : AccountState
  blockhash_state : BlockhashState
  logs : List Log
  depth : Nat
deriving DecidableEq, Repr

/-- Modelled from the spec: the quadratic memory gas formula
`memory_gas(w) = 3·w + w²/512` (from the missing `eval::cost` module). -/
def memory_gas (w : Gas) : Gas := 3 * w + w * w / 512

def State.memory_gas (s : State) : Gas := SputnikVM.memory_gas s.memory_cost

def State.available_gas (s : State) : Gas :=
  s.context.gas_limit - s.memory_gas - s.used_gas

/-- Modelled from the spec (missing `eval::utils` module): bounded,
zero-padded copy of `len` bytes out of memory starting at `start`. -/
def copy_from_memory (m : Memory) (start len : M256) : List Nat :=
  (List.range len).map (fun i => m.readByte (start + i))

/-- Modelled from the spec (missing `eval::utils` module): copy `len` bytes
of `src` starting at `srcStart` into memory at `memStart`; reads past the
source length yield zero, writes extend memory. -/
def copy_into_memory (m : Memory) (src : List Nat) (memStart srcStart len : M256) :
    Memory :=
  (List.range len).foldl
    (fun mm i => mm.writeByte (memStart + i) ((src.get? (srcStart + i)).getD 0)) m

/-- 32-byte words needed to cover `off + len` bytes, as a `Gas` value. -/
def wordsFor (off len : M256) : Gas := ((off : Int) + (len : Int) + 31) / 32

/-- Stack read with a zero default, used by the cost functions (in the
source the static check has already guaranteed the stack depth). -/
def State.peekD (s : State) (k : Nat) : M256 := (s.stack.peek k).getD 0

/-- Modelled from the spec (missing `eval::cost` module):
`memory_cost(instr, state)` is the post-instruction memory size in
32-byte words, never less than the current `memory_cost`. -/
def memory_cost (i : Instruction) (s : State) : Gas :=
  let cur := s.memory_cost
  match i with
  | .MLOAD | .MSTORE => max cur (wordsFor (s.peekD 0) 32)
  | .MSTORE8 => max cur (wordsFor (s.peekD 0) 1)
  | .SHA3 | .RETURN | .LOG _ =>
    if s.peekD 1 = 0 then cur else max cur (wordsFor (s.peekD 0) (s.peekD 1))
  | .CALLDATACOPY | .CODECOPY =>
    if s.peekD 2 = 0 then cur else max cur (wordsFor (s.peekD 0) (s.peekD 2))
  | .EXTCODECOPY =>
    if s.peekD 3 = 0 then cur else max cur (wordsFor (s.peekD 1) (s.peekD 3))
  | .CREATE =>
    if s.peekD 2 = 0 then cur else max cur (wordsFor (s.peekD 1) (s.peekD 2))
  | .CALL | .CALLCODE =>
    max (if s.peekD 4 = 0 then cur else max cur (wordsFor (s.peekD 3) (s.peekD 4)))
        (if s.peekD 6 = 0 then cur else max cur (wordsFor (s.peekD 5) (s.peekD 6)))
  | _ => cur

/-- Byte length of a word, used for the `EXP` gas cost. -/
def byteLength (v : M256) : Nat := if v = 0 then 0 else Nat.log 256 v + 1

/-- Modelled from the spec (missing `eval::cost` module): the per-opcode
gas cost table, with the standard tiers and value-dependent costs. -/
def gas_cost (i : Instruction) (s : State) : Gas :=
  match i with
  | .STOP | .RETURN | .SUICIDE => 0
  | .ADDRESS | .ORIGIN | .CALLER | .CALLVALUE | .CALLDATASIZE | .CODESIZE
  | .GASPRICE | .COINBASE | .TIMESTAMP | .NUMBER | .DIFFICULTY | .GASLIMIT
  | .POP | .PC | .MSIZE | .GAS => 2
  | .ADD | .SUB | .NOT | .LT | .GT | .SLT | .SGT | .EQ | .ISZERO | .AND
  | .OR | .XOR | .BYTE | .CALLDATALOAD | .MLOAD | .MSTORE | .MSTORE8
  | .PUSH _ | .DUP _ | .SWAP _ => 3
  | .MUL | .DIV | .SDIV | .MOD | .SMOD | .SIGNEXTEND => 5
  | .ADDMOD | .MULMOD | .JUMP => 8
  | .JUMPI => 10
  | .JUMPDEST => 1
  | .EXP => 10 + 10 * (byteLength (s.peekD 1) : Int)
  | .SHA3 => 30 + 6 * wordsFor 0 (s.peekD 1)
  | .CALLDATACOPY | .CODECOPY => 3 + 3 * wordsFor 0 (s.peekD 2)
  | .EXTCODECOPY => 20 + 3 * wordsFor 0 (s.peekD 3)
  | .EXTCODESIZE | .BALANCE | .BLOCKHASH => 20
  | .SLOAD => 50
  | .SSTORE =>
    let old := ((s.account_state.storage_read s.context.address (s.peekD 0)).getD 0)
    if s.peekD 1 ≠ 0 ∧ old = 0 then 20000 else 5000
  | .LOG n => 375 + 375 * (n : Int) + 8 * (s.peekD 1 : Int)
  | .CREATE => 32000
  | .CALL | .CALLCODE => 40 + (if s.peekD 2 ≠ 0 then 9000 else 0)
  | .DELEGATECALL => 40

/-- Modelled from the spec (missing `eval::cost` module): the call stipend,
2300 for `CALL`/`CALLCODE` transferring a non-zero value, else zero. -/
def gas_stipend (i : Instruction) (s : State) : Gas :=
  match i with
  | .CALL | .CALLCODE => if s.peekD 2 ≠ 0 then 2300 else 0
  | _ => 0

/-- Modelled from the spec (missing `eval::cost` module): the
`SSTORE`-clear and `SUICIDE` refunds. -/
def gas_refund (i : Instruction) (s : State) : Gas :=
  match i with
  | .SSTORE =>
    let old := ((s.account_state.storage_read s.context.address (s.peekD 0)).getD 0)
    if old ≠ 0 ∧ s.peekD 1 = 0 then 15000 else 0
  | .SUICIDE => 24000
  | _ => 0

/-- Modelled from the spec (missing `eval::cost` module): the per-byte
deposit charge for storing created-contract code. -/
def code_deposit_gas (len : Nat) : Gas := 200 * (len : Int)

/-! The bytecode decoder `PC`.  The spec lists it among the external
collaborators whose implementation is not given here; it is modelled from
the spec's description and the standard opcode byte table. -/

/-- Modelled from the spec: the decoder's simple (immediate-free) opcode
byte table. -/
def decodeSimple (b : Nat) : Option Instruction :=
  match b with
  | 0x00 => some .STOP | 0x01 => some .ADD | 0x02 => some .MUL
  | 0x03 => some .SUB | 0x04 => some .DIV | 0x05 => some .SDIV
  | 0x06 => some .MOD | 0x07 => some .SMOD | 0x08 => some .ADDMOD
  | 0x09 => some .MULMOD | 0x0a => some .EXP | 0x0b => some .SIGNEXTEND
  | 0x10 => some .LT | 0x11 => some .GT | 0x12 => some .SLT
  | 0x13 => some .SGT | 0x14 => some .EQ | 0x15 => some .ISZERO
  | 0x16 => some .AND | 0x17 => some .OR | 0x18 => some .XOR
  | 0x19 => some .NOT | 0x1a => some .BYTE | 0x20 => some .SHA3
  | 0x30 => some .ADDRESS | 0x31 => some .BALANCE | 0x32 => some .ORIGIN
  | 0x33 => some .CALLER | 0x34 => some .CALLVALUE | 0x35 => some .CALLDATALOAD
  | 0x36 => some .CALLDATASIZE | 0x37 => some .CALLDATACOPY
  | 0x38 => some .CODESIZE | 0x39 => some .CODECOPY | 0x3a => some .GASPRICE
  | 0x3b => some .EXTCODESIZE | 0x3c => some .EXTCODECOPY
  | 0x40 => some .BLOCKHASH | 0x41 => some .COINBASE | 0x42 => some .TIMESTAMP
  | 0x43 => some .NUMBER | 0x44 => some .DIFFICULTY | 0x45 => some .GASLIMIT
  | 0x50 => some .POP | 0x51 => some .MLOAD | 0x52 => some .MSTORE
  | 0x53 => some .MSTORE8 | 0x54 => some .SLOAD | 0x55 => some .SSTORE
  | 0x56 => some .JUMP | 0x57 => some .JUMPI | 0x58 => some .PC
  | 0x59 => some .MSIZE | 0x5a => some .GAS | 0x5b => some .JUMPDEST
  | 0xf0 => some .CREATE | 0xf1 => some .CALL | 0xf2 => some .CALLCODE
  | 0xf3 => some .RETURN | 0xf4 => some .DELEGATECALL | 0xff => some .SUICIDE
  | _ => none

/-- Modelled from the spec: read a big-endian `k`-byte push immediate at
`pos`, zero-padded past the end of the code. -/
def readImmediate (code : List Nat) (pos k : Nat) : M256 :=
  (List.range k).foldl (fun acc j => acc * 256 + (code.get? (pos + j)).getD 0) 0

/-- Modelled from the spec: decode the instruction at byte position `pos`,
returning it with the position just past it (immediates included). -/
def decodeAt (code : List Nat) (pos : Nat) : Except PCError (Instruction × Nat) :=
  match code.get? pos with
  | none => .error .PCOverflow
  | some b =>
    if 0x60 ≤ b ∧ b ≤ 0x7f then
      let k := b - 0x5f
      .ok (.PUSH (readImmediate code (pos + 1) k), pos + 1 + k)
    else if 0x80 ≤ b ∧ b ≤ 0x8f then .ok (.DUP (b - 0x7f), pos + 1)
    else if 0x90 ≤ b ∧ b ≤ 0x9f then .ok (.SWAP (b - 0x8f), pos + 1)
    else if 0xa0 ≤ b ∧ b ≤ 0xa4 then .ok (.LOG (b - 0xa0), pos + 1)
    else
      match decodeSimple b with
      | some i => .ok (i, pos + 1)
      | none => .error .InvalidOpcode

/-- Modelled from the spec: the instruction pointer over raw bytecode. -/
structure PC where
  code : List Nat
  position : Nat
deriving DecidableEq, Repr

def PC.new (code : List Nat) : PC := { code := code, position := 0 }

/-- Modelled from the spec: the PC is at its end when the position has
passed the last byte. -/
def PC.is_end (pc : PC) : Bool := pc.position ≥ pc.code.length

/-- Modelled from the spec: peek the instruction at the current position
without advancing. -/
def PC.peek (pc : PC) : Except PCError Instruction :=
  (decodeAt pc.code pc.position).map Prod.fst

/-- Modelled from the spec: decode the instruction at the current position
and advance past it (a failed decode is an unwrapped panic: `none`). -/
def PC.read (pc : PC) : Option (Instruction × PC) :=
  match decodeAt pc.code pc.position with
  | .ok (i, next) => some (i, { pc with position := next })
  | .error _ => none

/-- Modelled from the spec: the set of valid jump destinations — positions
holding a `JUMPDEST` byte that is not inside a `PUSH` immediate — computed
by walking the code from position 0. -/
def jumpdestsFrom (code : List Nat) : Nat → Nat → List Nat
  | 0, _ => []
  | fuel + 1, pos =>
    match decodeAt code pos with
    | .error _ => []
    | .ok (.JUMPDEST, next) => pos :: jumpdestsFrom code fuel next
    | .ok (_, next) => jumpdestsFrom code fuel next

def PC.is_valid (pc : PC) (dest : Nat) : Bool :=
  (jumpdestsFrom pc.code pc.code.length 0).contains dest

/-- Modelled from the spec: jump to a destination; an invalid destination
is an error (the caller in `step` unwraps it). -/
def PC.jump (pc : PC) (dest : Nat) : Option PC :=
  if pc.is_valid dest then some { pc with position := dest } else none

/-- Used by `check` for additional checks (`eval::ControlCheck`). -/
inductive ControlCheck where
  | Jump : M256 → ControlCheck
deriving DecidableEq, Repr

/-- Used by `step` for additional operations (`eval::Control`). -/
inductive Control where
  | Stop : Control
  | Jump : M256 → Control
  | InvokeCreate : Context → Control
  | InvokeCall : Context → M256 × M256 → Control
deriving DecidableEq, Repr

/-- Modelled from the spec: operand count of each instruction, for the
static stack-underflow check. -/
def stackConsumed (i : Instruction) : Nat :=
  match i with
  | .STOP | .ADDRESS | .ORIGIN | .CALLER | .CALLVALUE | .CALLDATASIZE
  | .CODESIZE | .GASPRICE | .COINBASE | .TIMESTAMP | .NUMBER | .DIFFICULTY
  | .GASLIMIT | .PC | .MSIZE | .GAS | .JUMPDEST | .PUSH _ => 0
  | .ISZERO | .NOT | .BALANCE | .CALLDATALOAD | .EXTCODESIZE | .BLOCKHASH
  | .POP | .MLOAD | .SLOAD | .JUMP | .SUICIDE => 1
  | .ADD | .MUL | .SUB | .DIV | .SDIV | .MOD | .SMOD | .EXP | .SIGNEXTEND
  | .LT | .GT | .SLT | .SGT | .EQ | .AND | .OR | .XOR | .BYTE | .SHA3
  | .MSTORE | .MSTORE8 | .SSTORE | .JUMPI | .RETURN => 2
  | .ADDMOD | .MULMOD | .CALLDATACOPY | .CODECOPY | .CREATE => 3
  | .EXTCODECOPY => 4
  | .DUP v => v
  | .SWAP v => v + 1
  | .LOG v => v + 2
  | .CALL | .CALLCODE => 7
  | .DELEGATECALL => 6

/-- Modelled from the spec: result count of each instruction, for the
static stack-overflow check. -/
def stackProduced (i : Instruction) : Nat :=
  match i with
  | .STOP | .CALLDATACOPY | .CODECOPY | .EXTCODECOPY | .POP | .MSTORE
  | .MSTORE8 | .SSTORE | .JUMP | .JUMPI | .JUMPDEST | .LOG _ | .RETURN
  | .SUICIDE => 0
  | .DUP v => v + 1
  | .SWAP v => v + 1
  | _ => 1

/-- Modelled from the spec (missing `eval::check` module): the static
check — stack underflow/overflow by operand and result counts, the pull
protocol's `Require` classification for reads of uncommitted world data,
and `ControlCheck::Jump` for the jump instructions. -/
def check_opcode (i : Instruction) (s : State) : Except EvalError (Option ControlCheck) :=
  if s.stack.length < stackConsumed i then
    .error (.Machine .StackUnderflow)
  else if s.stack.length - stackConsumed i + stackProduced i > 1024 then
    .error (.Machine .StackOverflow)
  else
    match i with
    | .BALANCE =>
      match s.account_state.balance ((s.peekD 0).toAddress) with
      | some _ => .ok none
      | none => .error (.Require (.Account ((s.peekD 0).toAddress)))
    | .EXTCODESIZE | .EXTCODECOPY =>
      match s.account_state.code ((s.peekD 0).toAddress) with
      | some _ => .ok none
      | none => .error (.Require (.AccountCode ((s.peekD 0).toAddress)))
    | .BLOCKHASH =>
      let n := s.peekD 0
      if ¬(n ≥ s.block.number ∨ M256.sub s.block.number n > 256) then
        match s.blockhash_state.get n with
        | some _ => .ok none
        | none => .error (.Require (.Blockhash n))
      else .ok none
    | .SLOAD | .SSTORE | .CREATE | .SUICIDE =>
      match s.account_state.lookup s.context.address with
      | some _ => .ok none
      | none => .error (.Require (.Account s.context.address))
    | .CALL | .CALLCODE =>
      match s.account_state.code ((s.peekD 1).toAddress) with
      | none => .error (.Require (.AccountCode ((s.peekD 1).toAddress)))
      | some _ =>
        match s.account_state.balance s.context.address with
        | some _ => .ok none
        | none => .error (.Require (.Account s.context.address))
    | .JUMP | .JUMPI => .ok (some (.Jump (s.peekD 0)))
    | _ => .ok none

/-- Modelled from the spec (missing `eval::check` module): the dynamic
check — for `CALL`/`CALLCODE`, sufficient parent balance to transfer the
value being sent. -/
def extra_check_opcode (i : Instruction) (s : State) (_stipend _after : Gas) :
    Except EvalError Unit :=
  match i with
  | .CALL | .CALLCODE =>
    match s.account_state.balance s.context.address with
    | none => .error (.Require (.Account s.context.address))
    | some bal => if bal < s.peekD 2 then .error (.Machine .InsufficientBalance) else .ok ()
  | _ => .ok ()

/-- Convert a (non-negative) gas amount to a word, as `Gas::into()`. -/
def gasToM256 (g : Gas) : M256 := M256.ofInt g

/-! Helpers shared by the `run_opcode` cases.  They mirror the source's
`pop!`/`push!` macros: a failing `Stack` operation is an unwrapped panic,
modelled as `none`. -/

/-- Pop one word, mirroring `pop!`. -/
def State.pop1 (s : State) : Option (M256 × State) :=
  (s.stack.pop).map (fun p => (p.1, { s with stack := p.2 }))

/-- Push one word, mirroring `push!`. -/
def State.push1 (s : State) (v : M256) : Option State :=
  (s.stack.push v).map (fun st => { s with stack := st })

/-- The `op2!` macro: pop `op1` then `op2`, push `f op1 op2`. -/
def binop (f : M256 → M256 → M256) (s : State) : Option State :=
  match s.stack with
  | op1 :: op2 :: rest => (Stack.push rest (f op1 op2)).map (fun st => { s with stack := st })
  | _ => none

/-- Pop three words and push one. -/
def triop (f : M256 → M256 → M256 → M256) (s : State) : Option State :=
  match s.stack with
  | a :: b :: c :: rest => (Stack.push rest (f a b c)).map (fun st => { s with stack := st })
  | _ => none

/-- Pop one word and push one. -/
def unop (f : M256 → M256) (s : State) : Option State :=
  match s.stack with
  | a :: rest => (Stack.push rest (f a)).map (fun st => { s with stack := st })
  | _ => none

/-- Pop `n` words, top first. -/
def State.popN (s : State) : Nat → Option (List M256 × State)
  | 0 => some ([], s)
  | n + 1 =>
    match s.pop1 with
    | none => none
    | some (v, s') => (s'.popN n).map (fun p => (v :: p.1, p.2))

/-- Modelled from the spec (missing `run::arithmetic`): `ADDMOD` —
unbounded-precision sum modulo `n`; `n = 0` yields 0. -/
def addmodWord (a b n : M256) : M256 := if n = 0 then 0 else (a + b) % n

/-- Modelled from the spec (missing `run::arithmetic`): `MULMOD`. -/
def mulmodWord (a b n : M256) : M256 := if n = 0 then 0 else (a * b) % n

/-- Modelled from the spec (missing `run::arithmetic`): `EXP` —
`base ^ exp mod 2^256`. -/
def expWord (base e : M256) : M256 := (base ^ e) % M256.modulus

/-- Modelled from the spec (missing `run::arithmetic`): `SIGNEXTEND` —
sign-extend the value from bit `8·i + 7`. -/
def signextendWord (i v : M256) : M256 :=
  if i > 31 then v
  else
    let bit := 8 * i + 7
    if v.testBit bit then v % 2 ^ (bit + 1) + (M256.modulus - 2 ^ (bit + 1))
    else v % 2 ^ (bit + 1)

/-- Modelled from the spec (missing `run::bitwise`): `BYTE` — the `i`-th
most significant byte of `v`. -/
def byteWord (i v : M256) : M256 := if i ≥ 32 then 0 else v / 256 ^ (31 - i) % 256

/-- Modelled from the spec (missing `run::environment`): `CALLDATALOAD` —
a 32-byte big-endian word of call data at `index`, zero-padded. -/
def calldataloadWord (data : List Nat) (index : M256) : M256 :=
  (List.range 32).foldl (fun acc j => acc * 256 + (data.get? (index + j)).getD 0) 0

/-- Modelled from the spec: the deterministic created-contract address,
derived from the creator address and nonce through the platform hash. -/
def createAddress (hash : List Nat → M256) (creator : Nat) (nonce : M256) : Nat :=
  (hash [creator, nonce]).toAddress

/-- Run an instruction (`run::run_opcode`), translated case by case from
`run/mod.rs`; the bodies living in the missing submodules
(`arithmetic`, `bitwise`, `flow`, `environment`, `system`) are modelled
from the spec.  The platform hash used by `SHA3` and `CREATE` is a
parameter, as the spec leaves it external.  `none` models a panic. -/
def run_opcode (hash : List Nat → M256) (pc : Instruction × Nat) (s : State)
    (stipend_gas after_gas : Gas) : Option (State × Option Control) :=
  match pc.1 with
  | .STOP => some (s, some .Stop)
  | .ADD => (binop M256.add s).map (·, none)
  | .MUL => (binop M256.mul s).map (·, none)
  | .SUB => (binop M256.sub s).map (·, none)
  | .DIV => (binop M256.div s).map (·, none)
  | .SDIV => (binop M256.sdiv s).map (·, none)
  | .MOD => (binop M256.rem s).map (·, none)
  | .SMOD => (binop M256.smod s).map (·, none)
  | .ADDMOD => (triop addmodWord s).map (·, none)
  | .MULMOD => (triop mulmodWord s).map (·, none)
  | .EXP => (binop expWord s).map (·, none)
  | .SIGNEXTEND => (binop signextendWord s).map (·, none)
  | .LT => (binop (fun a b => boolWord (a < b)) s).map (·, none)
  | .GT => (binop (fun a b => boolWord (a > b)) s).map (·, none)
  | .SLT => (binop (fun a b => boolWord (a.toSigned < b.toSigned)) s).map (·, none)
  | .SGT => (binop (fun a b => boolWord (a.toSigned > b.toSigned)) s).map (·, none)
  | .EQ => (binop (fun a b => boolWord (a = b)) s).map (·, none)
  | .ISZERO => (unop (fun a => boolWord (a = 0)) s).map (·, none)
  | .AND => (binop M256.bAnd s).map (·, none)
  | .OR => (binop M256.bOr s).map (·, none)
  | .XOR => (binop M256.bXor s).map (·, none)
  | .NOT => (unop (fun a => a ^^^ (M256.modulus - 1)) s).map (·, none)
  | .BYTE => (binop byteWord s).map (·, none)
  | .SHA3 =>
    (match s.stack with
     | from_ :: len :: rest =>
       (Stack.push rest (hash (copy_from_memory s.memory from_ len))).map
         (fun st => { s with stack := st })
     | _ => none).map (·, none)
  | .ADDRESS => (s.push1 s.context.address).map (·, none)
  | .BALANCE =>
    (match s.pop1 with
     | some (address, s1) =>
       match s1.account_state.balance address.toAddress with
       | some bal => s1.push1 bal
       | none => none
     | none => none).map (·, none)
  | .ORIGIN => (s.push1 s.context.origin).map (·, none)
  | .CALLER => (s.push1 s.context.caller).map (·, none)
  | .CALLVALUE => (s.push1 s.context.value).map (·, none)
  | .CALLDATALOAD => (unop (calldataloadWord s.context.data) s).map (·, none)
  | .CALLDATASIZE => (s.push1 s.context.data.length).map (·, none)
  | .CALLDATACOPY =>
    (match s.stack with
     | memory_index :: data_index :: len :: rest =>
       some { s with stack := rest,
                     memory := copy_into_memory s.memory s.context.data
                                 memory_index data_index len }
     | _ => none).map (·, none)
  | .CODESIZE => (s.push1 s.context.code.length).map (·, none)
  | .CODECOPY =>
    (match s.stack with
     | memory_index :: code_index :: len :: rest =>
       some { s with stack := rest,
                     memory := copy_into_memory s.memory s.context.code
                                 memory_index code_index len }
     | _ => none).map (·, none)
  | .GASPRICE => (s.push1 s.context.gas_price).map (·, none)
  | .EXTCODESIZE =>
    (match s.pop1 with
     | some (address, s1) =>
       match s1.account_state.code address.toAddress with
       | some code => s1.push1 code.length
       | none => none
     | none => none).map (·, none)
  | .EXTCODECOPY =>
    (match s.stack with
     | address :: memory_index :: code_index :: len :: rest =>
       match s.account_state.code address.toAddress with
       | some code =>
         some { s with stack := rest,
                       memory := copy_into_memory s.memory code
                                   memory_index code_index len }
       | none => none
     | _ => none).map (·, none)
  | .BLOCKHASH =>
    (match s.pop1 with
     | some (number, s1) =>
       let current_number := s1.block.number
       if ¬(number ≥ current_number ∨ M256.sub current_number number > (256 : M256)) then
         match s1.blockhash_state.get number with
         | some h => s1.push1 h
         | none => none
       else s1.push1 0
     | none => none).map (·, none)
  | .COINBASE => (s.push1 s.block.coinbase).map (·, none)
  | .TIMESTAMP => (s.push1 s.block.timestamp).map (·, none)
  | .NUMBER => (s.push1 s.block.number).map (·, none)
  | .DIFFICULTY => (s.push1 s.block.difficulty).map (·, none)
  | .GASLIMIT => (s.push1 s.block.gas_limit).map (·, none)
  | .POP => (s.pop1).map (fun p => (p.2, none))
  | .MLOAD => (unop (fun index => s.memory.readWord index) s).map (·, none)
  | .MSTORE =>
    (match s.stack with
     | index :: value :: rest =>
       some { s with stack := rest, memory := s.memory.writeWord index value }
     | _ => none).map (·, none)
  | .MSTORE8 =>
    (match s.stack with
     | index :: value :: rest =>
       some { s with stack := rest, memory := s.memory.writeByte index (value % 256) }
     | _ => none).map (·, none)
  | .SLOAD =>
    (match s.pop1 with
     | some (key, s1) =>
       match s1.account_state.storage_read s1.context.address key with
       | some v => s1.push1 v
       | none => none
     | none => none).map (·, none)
  | .SSTORE =>
    (match s.stack with
     | key :: value :: rest =>
       match s.account_state.storage_write s.context.address key value with
       | some as1 => some { s with stack := rest, account_state := as1 }
       | none => none
     | _ => none).map (·, none)
  | .JUMP =>
    match s.pop1 with
    | some (dest, s1) => some (s1, some (.Jump dest))
    | none => none
  | .JUMPI =>
    match s.popN 2 with
    | some ([dest, value], s1) =>
      if value ≠ 0 then some (s1, some (.Jump dest)) else some (s1, none)
    | _ => none
  | .PC => (s.push1 pc.2).map (·, none)
  | .MSIZE => (s.push1 (gasToM256 (s.memory_cost * 32))).map (·, none)
  | .GAS => (s.push1 (gasToM256 after_gas)).map (·, none)
  | .JUMPDEST => some (s, none)
  | .PUSH v => (s.push1 v).map (·, none)
  | .DUP v =>
    (match s.stack.peek (v - 1) with
     | some val => s.push1 val
     | none => none).map (·, none)
  | .SWAP v =>
    (match s.stack.peek 0, s.stack.peek v with
     | some val1, some val2 =>
       match Stack.set s.stack 0 val2 with
       | some st1 =>
         match Stack.set st1 v val1 with
         | some st2 => some { s with stack := st2 }
         | none => none
       | none => none
     | _, _ => none).map (·, none)
  | .LOG v =>
    (match s.popN 2 with
     | some ([offset, len], s1) =>
       match s1.popN v with
       | some (topics, s2) =>
         some { s2 with
                logs := s2.logs ++
                  [({ address := s2.context.address, topics := topics,
                      data := copy_from_memory s2.memory offset len } : Log)] }
       | none => none
     | _ => none).map (·, none)
  | .CREATE =>
    match s.popN 3 with
    | some ([value, init_start, init_len], s1) =>
      match s1.account_state.nonceOf s1.context.address with
      | some nonce =>
        let code := copy_from_memory s1.memory init_start init_len
        let ctx : Context :=
          { address := createAddress hash s1.context.address nonce,
            caller := s1.context.address,
            origin := s1.context.origin,
            value := value,
            data := [],
            code := code,
            gas_price := s1.context.gas_price,
            gas_limit := after_gas }
        some (s1, some (.InvokeCreate ctx))
      | none => none
    | _ => none
  | .CALL =>
    match s.popN 7 with
    | some ([gas, to_, value, in_start, in_len, out_start, out_len], s1) =>
      match s1.account_state.code to_.toAddress with
      | some code =>
        let ctx : Context :=
          { address := to_.toAddress,
            caller := s1.context.address,
            origin := s1.context.origin,
            value := value,
            data := copy_from_memory s1.memory in_start in_len,
            code := code,
            gas_price := s1.context.gas_price,
            gas_limit := (gas : Int) + stipend_gas }
        some (s1, some (.InvokeCall ctx (out_start, out_len)))
      | none => none
    | _ => none
  | .CALLCODE =>
    match s.popN 7 with
    | some ([gas, to_, value, in_start, in_len, out_start, out_len], s1) =>
      match s1.account_state.code to_.toAddress with
      | some code =>
        let ctx : Context :=
          { address := s1.context.address,
            caller := s1.context.address,
            origin := s1.context.origin,
            value := value,
            data := copy_from_memory s1.memory in_start in_len,
            code := code,
            gas_price := s1.context.gas_price,
            gas_limit := (gas : Int) + stipend_gas }
        some (s1, some (.InvokeCall ctx (out_start, out_len)))
      | none => none
    | _ => none
  | .RETURN =>
    match s.popN 2 with
    | some ([start, len], s1) =>
      some ({ s1 with out := copy_from_memory s1.memory start len }, some .Stop)
    | _ => none
  | .DELEGATECALL => none
  | .SUICIDE =>
    match s.pop1 with
    | some (address, s1) =>
      match s1.account_state.balance s1.context.address with
      | some bal =>
        let as1 := s1.account_state.increase_balance address.toAddress bal
        let as2 := as1.filter (fun p => p.1 ≠ s1.context.address)
        some ({ s1 with account_state := as2 }, some .Stop)
      | none => none
    | none => none

/-- The current runtime status (`eval::MachineStatus`). -/
inductive MachineStatus where
  | Running : MachineStatus
  | ExitedOk : MachineStatus
  | ExitedErr : MachineError → MachineStatus
  | InvokeCreate : Context → MachineStatus
  | InvokeCall : Context → M256 × M256 → MachineStatus
deriving DecidableEq, Repr

/-- A VM state with PC (`eval::Machine`). -/
structure Machine where
  state : State
  pc : PC
  status : MachineStatus
deriving DecidableEq, Repr

/-- Create a new runtime (`Machine::new`). -/
def Machine.new (context : Context) (block : BlockHeader) (patch : Patch)
    (depth : Nat) : Machine :=
  { pc := PC.new context.code,
    status := .Running,
    state :=
      { memory := [],
        stack := [],
        context := context,
        block := block,
        patch := patch,
        out := [],
        memory_cost := 0,
        used_gas := 0,
        refunded_gas := 0,
        account_state := [],
        blockhash_state := [],
        logs := [],
        depth := depth } }

/-- Derive a sub runtime (`Machine::derive`); being a pure function it
does not modify the parent. -/
def Machine.derive (m : Machine) (context : Context) : Machine :=
  { pc := PC.new context.code,
    status := .Running,
    state :=
      { memory := [],
        stack := [],
        context := context,
        block := m.state.block,
        patch := m.state.patch,
        out := [],
        memory_cost := 0,
        used_gas := 0,
        refunded_gas := 0,
        account_state := m.state.account_state,
        blockhash_state := m.state.blockhash_state,
        logs := m.state.logs,
        depth := m.state.depth + 1 } }

/-- Commit a new account into this runtime (`Machine::commit_account`). -/
def Machine.commit_account (m : Machine) (c : AccountCommitment) :
    Except CommitError Machine :=
  (m.state.account_state.commit c).map
    (fun as1 => { m with state := { m.state with account_state := as1 } })

/-- Commit a new blockhash into this runtime (`Machine::commit_blockhash`). -/
def Machine.commit_blockhash (m : Machine) (number hashValue : M256) :
    Except CommitError Machine :=
  (m.state.blockhash_state.commit number hashValue).map
    (fun bs => { m with state := { m.state with blockhash_state := bs } })

/-- Get the current runtime status (`Machine::status`). -/
def Machine.statusOf (m : Machine) : MachineStatus := m.status

/-- `Machine::apply_create`: fold a finished child of an `InvokeCreate`
back into the parent (whose status has already been reset to `Running`).
In the source the `ExitedErr` arm is commented out and does nothing.
`none` models a panic. -/
def Machine.apply_create (m : Machine) (sub : Machine) : Option Machine :=
  if m.state.available_gas < sub.state.used_gas then none
  else
    match sub.status with
    | .ExitedOk =>
      let st1 := { m.state with
                   account_state := sub.state.account_state,
                   blockhash_state := sub.state.blockhash_state,
                   logs := sub.state.logs,
                   used_gas := m.state.used_gas + sub.state.used_gas,
                   refunded_gas := m.state.refunded_gas + sub.state.refunded_gas }
      if st1.available_gas ≥ code_deposit_gas sub.state.out.length then
        let as1 := st1.account_state.decrease_balance st1.context.address
                     sub.state.context.value
        let as2 := as1.create sub.state.context.address sub.state.context.value
                     sub.state.out
        some { m with state := { st1 with account_state := as2 } }
      else some { m with state := st1 }
    | .ExitedErr _ => some m
    | _ => none

/-- `Machine::apply_call`: fold a finished child of an `InvokeCall` back
into the parent (whose status has already been reset to `Running`).
`none` models a panic. -/
def Machine.apply_call (m : Machine) (sub : Machine) (out_start out_len : M256) :
    Option Machine :=
  if m.state.available_gas < sub.state.used_gas then none
  else
    match sub.status with
    | .ExitedOk =>
      let st1 := { m.state with
                   account_state := sub.state.account_state,
                   blockhash_state := sub.state.blockhash_state,
                   logs := sub.state.logs,
                   used_gas := m.state.used_gas + sub.state.used_gas,
                   refunded_gas := m.state.refunded_gas + sub.state.refunded_gas }
      let as1 := st1.account_state.decrease_balance st1.context.address
                   sub.state.context.value
      let as2 := as1.increase_balance sub.state.context.address
                   sub.state.context.value
      let mem := copy_into_memory st1.memory sub.state.out out_start 0 out_len
      some { m with state := { st1 with account_state := as2, memory := mem } }
    | .ExitedErr _ =>
      match m.state.stack.pop with
      | none => none
      | some (_, rest) =>
        match rest.push 1 with
        | none => none
        | some st => some { m with state := { m.state with stack := st } }
    | _ => none

/-- `Machine::apply_sub`: swap the status out to `Running` first, then
dispatch on the invoke kind.  `none` models the `panic!` on a status that
is not an invoke. -/
def Machine.apply_sub (m : Machine) (sub : Machine) : Option Machine :=
  let status := m.status
  let m1 := { m with status := .Running }
  match status with
  | .InvokeCreate _ => m1.apply_create sub
  | .InvokeCall _ (out_start, out_len) => m1.apply_call sub out_start out_len
  | _ => none

/-- `Machine::check`: peek the next instruction and statically validate
it, classifying jump targets. -/
def Machine.check (m : Machine) : Except EvalError Unit :=
  match m.pc.peek with
  | .error e => .error (.Machine (.PC e))
  | .ok instruction =>
    match check_opcode instruction m.state with
    | .error e => .error e
    | .ok none => .ok ()
    | .ok (some (.Jump dest)) =>
      if dest ≤ 2 ^ 64 - 1 ∧ m.pc.is_valid dest then .ok ()
      else .error (.Machine (.PC .BadJumpDest))

/-- The result of `Machine::step`: the machine after the call paired with
`none` for `Ok(())` or `some e` for `Err(e)`; the outer `none` models a
panic. -/
abbrev StepResult := Option (Machine × Option RequireError)

/-- `Machine::step`, translated line by line from `eval/mod.rs`.  The
platform hash consumed by `run_opcode` is a parameter. -/
def Machine.step (hash : List Nat → M256) (m : Machine) : StepResult :=
  match m.status with
  | .Running =>
    if m.state.depth ≥ 2 then
      some ({ m with status := .ExitedErr .CallstackOverflow }, none)
    else if m.pc.is_end then
      some ({ m with status := .ExitedOk }, none)
    else
      match m.check with
      | .error (.Machine e) => some ({ m with status := .ExitedErr e }, none)
      | .error (.Require e) => some (m, some e)
      | .ok () =>
        match m.pc.peek with
        | .error _ => none
        | .ok instruction =>
          let position := m.pc.position
          let memoryCost := memory_cost instruction m.state
          let memoryGas := memory_gas memoryCost
          let gasCost := gas_cost instruction m.state
          let gasStipend := gas_stipend instruction m.state
          let gasRefund := gas_refund instruction m.state
          let after_gas := m.state.context.gas_limit - memoryGas -
                             m.state.used_gas - gasCost + gasStipend
          match extra_check_opcode instruction m.state gasStipend after_gas with
          | .error (.Machine e) => some ({ m with status := .ExitedErr e }, none)
          | .error (.Require e) => some (m, some e)
          | .ok () =>
            if m.state.context.gas_limit <
                memoryGas + m.state.used_gas + gasCost - gasStipend then
              some ({ m with status := .ExitedErr .EmptyGas }, none)
            else
              match m.pc.read with
              | none => none
              | some (instruction2, pc1) =>
                match run_opcode hash (instruction2, position) m.state
                        gasStipend after_gas with
                | none => none
                | some (s1, result) =>
                  let s2 := { s1 with
                              used_gas := s1.used_gas + gasCost - gasStipend,
                              memory_cost := memoryCost,
                              refunded_gas := s1.refunded_gas + gasRefund }
                  match result with
                  | none => some ({ m with state := s2, pc := pc1 }, none)
                  | some (.Jump dest) =>
                    match pc1.jump dest with
                    | none => none
                    | some pc2 => some ({ m with state := s2, pc := pc2 }, none)
                  | some (.InvokeCall context (a, b)) =>
                    let m1 := { m with state := s2, pc := pc1,
                                       status := .InvokeCall context (a, b) }
                    some (m1, none)
                  | some (.InvokeCreate context) =>
                    let m1 := { m with state := s2, pc := pc1,
                                       status := .InvokeCreate context }
                    some (m1, none)
                  | some .Stop =>
                    some ({ m with state := s2, pc := pc1, status := .ExitedOk }, none)
  | _ => none

/-! Concrete fixtures used to exercise the theorems on closed inputs. -/

/-- A trivial stand-in for the (external) platform hash. -/
def h0 : List Nat → M256 := fun _ => 0

def blk0 : BlockHeader :=
  { coinbase := 1, timestamp := 0, number := 1000, difficulty := 0, gas_limit := 0 }

def p0 : Patch := { homestead := true }

def ctx0 (code : List Nat) (gl : Gas) : Context :=
  { address := 10, caller := 11, origin := 11, value := 0,
    data := [], code := code, gas_price := 0, gas_limit := gl }

/-- A running machine over the given code, stack, gas limit and depth. -/
def baseMachine (code : List Nat) (stack : Stack) (gl : Gas) (depth : Nat) : Machine :=
  { pc := PC.new code,
    status := .Running,
    state :=
      { memory := [], stack := stack, context := ctx0 code gl, block := blk0,
        patch := p0, out := [], memory_cost := 0, used_gas := 0,
        refunded_gas := 0, account_state := [], blockhash_state := [],
        logs := [], depth := depth } }

/-- C4: for a `Running` machine whose depth is at least 2 (the source's
maximum call depth), `step` sets the status to
`ExitedErr(CallstackOverflow)` and returns `Ok(())`, leaving every other
field (the whole `State` and the PC) unchanged. -/
theorem step_callstack_overflow (hash : List Nat → M256) (m : Machine)
    (h1 : m.status = .Running) (h2 : m.state.depth ≥ 2) :
    m.step hash = some ({ m with status := .ExitedErr .CallstackOverflow }, none) := by
  unfold Machine.step
  rw [h1]
  simp [h2]

/-- Witness for C4 at a concrete machine of depth 2. -/
theorem step_callstack_overflow_witness :
    (baseMachine [0x00] [] 100 2).step h0 =
      some ({ baseMachine [0x00] [] 100 2 with
              status := .ExitedErr .CallstackOverflow }, none) :=
  step_callstack_overflow h0 (baseMachine [0x00] [] 100 2) rfl (by decide)

/-- C10: with depth at least 2 the call-depth check fires before the
end-of-code check, so even a machine whose PC is already past the last
byte of its code (for instance because the code is empty) exits with
`CallstackOverflow`, never `ExitedOk`. -/
theorem step_depth_before_end (hash : List Nat → M256) (m : Machine)
    (h1 : m.status = .Running) (h2 : m.state.depth ≥ 2)
    (h3 : m.pc.is_end = true) :
    m.step hash = some ({ m with status := .ExitedErr .CallstackOverflow }, none) ∧
    ∀ m' r, m.step hash = some (m', r) → m'.status ≠ .ExitedOk := by
  have hstep : m.step hash =
      some ({ m with status := .ExitedErr .CallstackOverflow }, none) := by
    unfold Machine.step
    rw [h1]
    simp [h2]
  refine ⟨hstep, ?_⟩
  intro m' r h
  rw [hstep] at h
  obtain ⟨h', -⟩ := Prod.mk.injEq .. ▸ (Option.some.inj h)
  subst h'
  simp

/-- Witness for C10 at a depth-2 machine with empty code (its PC is at the
end from the start). -/
theorem step_depth_before_end_witness :
    (baseMachine [] [] 100 2).step h0 =
      some ({ baseMachine [] [] 100 2 with
              status := .ExitedErr .CallstackOverflow }, none) ∧
    ∀ m' r, (baseMachine [] [] 100 2).step h0 = some (m', r) →
      m'.status ≠ .ExitedOk :=
  step_depth_before_end h0 (baseMachine [] [] 100 2) rfl (by decide) (by decide)

/-- C7: `derive` builds the child with fresh memory, stack, gas counters
and `out`; cloned `account_state`, `blockhash_state` and `logs`; depth one
more than the parent; the new context; the inherited block and patch;
status `Running`; and the PC at position 0.  Being a pure function of the
parent, `derive` leaves the parent machine itself untouched. -/
theorem derive_spec (m : Machine) (c : Context) :
    (m.derive c).state.memory = [] ∧
    (m.derive c).state.stack = [] ∧
    (m.derive c).state.memory_cost = 0 ∧
    (m.derive c).state.used_gas = 0 ∧
    (m.derive c).state.refunded_gas = 0 ∧
    (m.derive c).state.out = [] ∧
    (m.derive c).state.account_state = m.state.account_state ∧
    (m.derive c).state.blockhash_state = m.state.blockhash_state ∧
    (m.derive c).state.logs = m.state.logs ∧
    (m.derive c).state.depth = m.state.depth + 1 ∧
    (m.derive c).state.context = c ∧
    (m.derive c).state.block = m.state.block ∧
    (m.derive c).state.patch = m.state.patch ∧
    (m.derive c).status = .Running ∧
    (m.derive c).pc.position = 0 := by
  simp [Machine.derive, PC.new]

/-- A parent machine sitting at an `InvokeCreate` status with an empty
stack, used to exhibit the `apply_create` failure path. -/
def applyCreateParent : Machine :=
  { baseMachine [0xf0] [] 100000 0 with
    status := .InvokeCreate (ctx0 [] 100) }

/-- A child machine that exited with an error. -/
def applyCreateChild : Machine :=
  { baseMachine [] [] 100 1 with status := .ExitedErr .EmptyGas }

/-- C2 counter-evidence: in the source the `ExitedErr` arm of
`apply_create` is commented out, so folding a failed child of an
`InvokeCreate` pushes nothing — the parent's stack stays empty instead of
receiving the value 0 that both the spec and the commented-out code call
for. -/
theorem apply_create_err_pushes_nothing :
    applyCreateParent.apply_sub applyCreateChild =
      some { applyCreateParent with status := .Running } ∧
    (applyCreateParent.apply_sub applyCreateChild).map
      (fun mm => mm.state.stack) = some [] := by
  constructor <;> rfl

/-- C3: folding a failed (`ExitedErr`) child of an `InvokeCall` back into
the parent leaves `account_state`, `blockhash_state`, `logs` and
`used_gas` untouched (the child's world mutations, logs and gas are all
discarded), replaces the top of the parent's stack by 1, and resets the
status to `Running`.  The hypotheses rule out the two source panics (gas
accounting spoiled, stack empty). -/
theorem apply_call_err_isolation (p sub : Machine) (ctx : Context)
    (os ol : M256) (e : MachineError) (v : M256) (rest : Stack)
    (h1 : p.status = .InvokeCall ctx (os, ol))
    (h2 : sub.status = .ExitedErr e)
    (h3 : ¬ p.state.available_gas < sub.state.used_gas)
    (h4 : p.state.stack = v :: rest)
    (h5 : rest.length < 1024) :
    p.apply_sub sub =
      some { p with status := .Running,
                    state := { p.state with stack := 1 :: rest } } := by
  unfold Machine.apply_sub Machine.apply_call
  rw [h1]
  simp only [h2, h4, if_neg h3, Stack.pop, Stack.push]
  rw [if_neg (by omega)]

/-- A parent machine at an `InvokeCall` status with a one-word stack. -/
def applyCallParent : Machine :=
  { baseMachine [0xf1] [7] 100000 0 with
    status := .InvokeCall (ctx0 [] 100) (0, 0) }

/-- Witness for C3 at concrete parent and child machines. -/
theorem apply_call_err_isolation_witness :
    applyCallParent.apply_sub applyCreateChild =
      some { applyCallParent with
             status := .Running,
             state := { applyCallParent.state with stack := 1 :: [] } } :=
  apply_call_err_isolation applyCallParent applyCreateChild (ctx0 [] 100)
    0 0 .EmptyGas 7 [] rfl rfl (by decide) rfl (by decide)

/-- C8: `BLOCKHASH` pops `n`; when `n` is at least the current block
number or more than 256 blocks old it pushes 0, otherwise it pushes the
hash committed for `n` (the run phase unwraps the committed value; the
static check has required it beforehand). -/
theorem run_blockhash (hash : List Nat → M256) (pos : Nat) (stip aft : Gas)
    (s : State) (n : M256) (rest : Stack)
    (h1 : s.stack = n :: rest) (h2 : s.stack.length ≤ 1024) :
    ((n ≥ s.block.number ∨ M256.sub s.block.number n > 256) →
      run_opcode hash (.BLOCKHASH, pos) s stip aft =
        some ({ s with stack := 0 :: rest }, none)) ∧
    (¬(n ≥ s.block.number ∨ M256.sub s.block.number n > 256) →
      ∀ hsh, s.blockhash_state.get n = some hsh →
        run_opcode hash (.BLOCKHASH, pos) s stip aft =
          some ({ s with stack := hsh :: rest }, none)) := by
  have hlen : ¬ rest.length ≥ 1024 := by
    rw [h1] at h2
    simp at h2
    omega
  constructor
  · intro hc
    simp [run_opcode, State.pop1, Stack.pop, h1, State.push1, Stack.push, hc, hlen]
  · intro hc hsh hget
    simp [run_opcode, State.pop1, Stack.pop, h1, State.push1, Stack.push,
      hc, hget, hlen]

/-- A state with a two-entry stack and one committed blockhash, for the
C8 and C9 witnesses. -/
def stateBH : State :=
  { (baseMachine [] [999, 5] 100 0).state with blockhash_state := [(999, 77)] }

/-- Witness for C8: at block number 1000, block 999 is in range and its
committed hash 77 is pushed. -/
theorem run_blockhash_witness :
    ¬((999 : M256) ≥ stateBH.block.number ∨
        M256.sub stateBH.block.number 999 > 256) ∧
    run_opcode h0 (.BLOCKHASH, 0) stateBH 0 0 =
      some ({ stateBH with stack := 77 :: [5] }, none) :=
  ⟨by decide,
   (run_blockhash h0 0 0 0 stateBH 999 [5] rfl (by decide)).2 (by decide) 77 rfl⟩

/-- C9: running `DUP(1)` and then `POP` returns the state to exactly its
original value — in particular the stack equals its original contents and
memory, `account_state` and logs are unchanged (the gas counters are
charged by `step`'s commit phase, outside `run_opcode`). -/
theorem run_dup1_then_pop (hash : List Nat → M256) (pos pos' : Nat)
    (stip aft : Gas) (s : State) (v : M256) (rest : Stack)
    (h1 : s.stack = v :: rest) (h2 : s.stack.length < 1024) :
    run_opcode hash (.DUP 1, pos) s stip aft =
      some ({ s with stack := v :: v :: rest }, none) ∧
    run_opcode hash (.POP, pos') { s with stack := v :: v :: rest } stip aft =
      some (s, none) := by
  have h2' : ¬ (v :: rest).length ≥ 1024 := by
    rw [h1] at h2
    simp only [List.length_cons] at h2
    simp
    omega
  have hlen : List.length rest < 1023 := by
    rw [h1] at h2
    simp only [List.length_cons] at h2
    omega
  constructor
  · simp [run_opcode, Stack.peek, h1, State.push1, Stack.push, h2', hlen]
  · simp only [run_opcode, State.pop1, Stack.pop, Option.map_some']
    have : { s with stack := v :: rest } = s := by
      cases s
      simp_all
    rw [this]

/-- Witness for C9 on the concrete two-entry stack. -/
theorem run_dup1_then_pop_witness :
    run_opcode h0 (.DUP 1, 0) stateBH 0 0 =
      some ({ stateBH with stack := 999 :: 999 :: [5] }, none) ∧
    run_opcode h0 (.POP, 1) { stateBH with stack := 999 :: 999 :: [5] } 0 0 =
      some (stateBH, none) :=
  run_dup1_then_pop h0 0 1 0 0 stateBH 999 [5] rfl (by decide)

/-- C1: when `step` returns `Err(RequireError)` — the `Require`
classification of the static check or of the dynamic extra check — the
machine is returned exactly as it was: every `State` field, the status and
the PC position are identical to their pre-call values, so after the
driver commits the missing datum the same instruction re-runs. -/
theorem step_require_atomic (hash : List Nat → M256) (m m' : Machine)
    (r : RequireError) (h : m.step hash = some (m', some r)) : m' = m := by
  unfold Machine.step at h
  iterate 14 all_goals (first | split at h | simp_all)

/-- Witness for C1: a `BALANCE` over an uncommitted account reports
`Require(Account 42)` and leaves the machine untouched (spec §8,
scenario 4). -/
theorem step_require_atomic_witness :
    (baseMachine [0x31] [42] 100 0).step h0 =
      some (baseMachine [0x31] [42] 100 0, some (.Account 42)) ∧
    baseMachine [0x31] [42] 100 0 = baseMachine [0x31] [42] 100 0 :=
  ⟨rfl, step_require_atomic h0 _ _ (.Account 42) rfl⟩

/-! Gas-accounting helper lemmas: no `run_opcode` case touches the
`used_gas` or `refunded_gas` counters (those are charged by `step`'s
commit phase). -/

theorem pop1_gas {s : State} {v : M256} {s' : State}
    (h : s.pop1 = some (v, s')) :
    s'.used_gas = s.used_gas ∧ s'.refunded_gas = s.refunded_gas := by
  unfold State.pop1 Stack.pop at h
  split at h
  · cases h
  · injection h with h1
    injection h1 with ha hb
    subst hb
    exact ⟨rfl, rfl⟩

theorem push1_gas {s : State} {v : M256} {s' : State}
    (h : s.push1 v = some s') :
    s'.used_gas = s.used_gas ∧ s'.refunded_gas = s.refunded_gas := by
  unfold State.push1 Stack.push at h
  split at h
  · cases h
  · injection h with h1
    subst h1
    exact ⟨rfl, rfl⟩

theorem popN_gas {n : Nat} {s : State} {l : List M256} {s' : State}
    (h : s.popN n = some (l, s')) :
    s'.used_gas = s.used_gas ∧ s'.refunded_gas = s.refunded_gas := by
  induction n generalizing s l s' with
  | zero =>
    simp [State.popN] at h
    simp [h.2]
  | succ k ih =>
    simp only [State.popN] at h
    split at h
    · cases h
    · rename_i v s1 heq
      rcases Option.map_eq_some'.mp h with ⟨⟨l1, s2⟩, h1, heq2⟩
      injection heq2 with ha hb
      subst hb
      have h2 := ih h1
      have h3 := pop1_gas heq
      exact ⟨h2.1.trans h3.1, h2.2.trans h3.2⟩

theorem binop_gas {f : M256 → M256 → M256} {s s' : State}
    (h : binop f s = some s') :
    s'.used_gas = s.used_gas ∧ s'.refunded_gas = s.refunded_gas := by
  unfold binop at h
  split at h
  · rcases Option.map_eq_some'.mp h with ⟨st, hst, rfl⟩
    exact ⟨rfl, rfl⟩
  · cases h

theorem triop_gas {f : M256 → M256 → M256 → M256} {s s' : State}
    (h : triop f s = some s') :
    s'.used_gas = s.used_gas ∧ s'.refunded_gas = s.refunded_gas := by
  unfold triop at h
  split at h
  · rcases Option.map_eq_some'.mp h with ⟨st, hst, rfl⟩
    exact ⟨rfl, rfl⟩
  · cases h

theorem unop_gas {f : M256 → M256} {s s' : State}
    (h : unop f s = some s') :
    s'.used_gas = s.used_gas ∧ s'.refunded_gas = s.refunded_gas := by
  unfold unop at h
  split at h
  · rcases Option.map_eq_some'.mp h with ⟨st, hst, rfl⟩
    exact ⟨rfl, rfl⟩
  · cases h

/-- No instruction's run phase modifies `used_gas` or `refunded_gas`. -/
theorem run_opcode_gas (hash : List Nat → M256) (i : Instruction) (pos : Nat)
    (s : State) (stip aft : Gas) (s' : State) (c : Option Control)
    (h : run_opcode hash (i, pos) s stip aft = some (s', c)) :
    s'.used_gas = s.used_gas ∧ s'.refunded_gas = s.refunded_gas := by
  cases i
  all_goals simp only [run_opcode] at h
  all_goals iterate 6 (try split at h)
  all_goals try (rcases Option.map_eq_some'.mp h with ⟨s1, h1, heq2⟩ <;> injection heq2 with heqa heqb <;> subst heqa)
  all_goals try exact binop_gas h1
  all_goals try exact triop_gas h1
  all_goals try exact unop_gas h1
  all_goals try exact push1_gas h1
  all_goals try (injection h with hinj <;> injection hinj with ha hb <;> subst ha <;> exact ⟨rfl, rfl⟩)
  all_goals try exact Option.noConfusion h
  all_goals try exact Option.noConfusion h1
  all_goals try (injection h with hinj <;> injection hinj with ha hb <;> subst ha <;> first | (have hg := pop1_gas (by assumption); exact ⟨hg.1, hg.2⟩) | (have hg := popN_gas (by assumption); exact ⟨hg.1, hg.2⟩))
  all_goals try (refine ⟨(push1_gas h1).1.trans ?_, (push1_gas h1).2.trans ?_⟩ <;> first | exact (pop1_gas (by assumption)).1 | exact (pop1_gas (by assumption)).2)
  all_goals try (rcases Option.map_eq_some'.mp h1 with ⟨st, hst, rfl⟩ <;> exact ⟨rfl, rfl⟩)
  all_goals try (obtain ⟨v2, s2⟩ := s1 <;> exact pop1_gas h1)
  all_goals try (injection h1 with h1j <;> subst h1j <;> first | (have hg := pop1_gas (by assumption); exact ⟨hg.1, hg.2⟩) | (have hg := popN_gas (by assumption); exact ⟨hg.1, hg.2⟩))
  case LOG.h_1.h_1.intro.intro =>
    rename_i x1 off len s1a hp1 x2 tps s2a hp2
    injection h1 with h1j
    subst h1j
    have g1 := popN_gas hp2
    have g2 := popN_gas hp1
    exact ⟨g1.1.trans g2.1, g1.2.trans g2.2⟩

/-- C5: once the static and dynamic checks have passed, `step` applies the
gas-exhaustion test on the pre-state — if it trips, the status becomes
`ExitedErr(EmptyGas)` with nothing else changed (the instruction does not
run); otherwise, however the instruction runs, the commit phase leaves
`used_gas` increased by exactly `gas_cost − gas_stipend`, `memory_cost`
set to the precomputed `memory_cost'`, and `refunded_gas` increased by
`gas_refund`. -/
theorem step_gas_accounting (hash : List Nat → M256) (m : Machine)
    (instruction : Instruction)
    (h1 : m.status = .Running) (h2 : m.state.depth < 2)
    (h3 : m.pc.is_end = false) (h4 : m.check = .ok ())
    (h5 : m.pc.peek = .ok instruction)
    (h6 : extra_check_opcode instruction m.state
        (gas_stipend instruction m.state)
        (m.state.context.gas_limit - memory_gas (memory_cost instruction m.state)
          - m.state.used_gas - gas_cost instruction m.state
          + gas_stipend instruction m.state) = .ok ()) :
    (m.state.context.gas_limit < memory_gas (memory_cost instruction m.state)
        + m.state.used_gas + gas_cost instruction m.state
        - gas_stipend instruction m.state →
      m.step hash = some ({ m with status := .ExitedErr .EmptyGas }, none)) ∧
    (¬(m.state.context.gas_limit < memory_gas (memory_cost instruction m.state)
        + m.state.used_gas + gas_cost instruction m.state
        - gas_stipend instruction m.state) →
      ∀ m' r, m.step hash = some (m', r) →
        m'.state.used_gas = m.state.used_gas + gas_cost instruction m.state
          - gas_stipend instruction m.state ∧
        m'.state.memory_cost = memory_cost instruction m.state ∧
        m'.state.refunded_gas = m.state.refunded_gas
          + gas_refund instruction m.state) := by
  obtain ⟨nxt, hdec⟩ : ∃ nxt,
      decodeAt m.pc.code m.pc.position = .ok (instruction, nxt) := by
    unfold PC.peek at h5
    rcases hd : decodeAt m.pc.code m.pc.position with e | p
    · rw [hd] at h5
      cases h5
    · obtain ⟨i2, nx⟩ := p
      rw [hd] at h5
      simp [Except.map] at h5
      exact ⟨nx, by rw [h5]⟩
  have hread : m.pc.read = some (instruction, { m.pc with position := nxt }) := by
    simp [PC.read, hdec]
  have hne : ¬ m.state.depth ≥ 2 := by omega
  constructor
  · intro hgas
    unfold Machine.step
    rw [h1]
    simp only [hne, if_false, h3, h4, h5, h6, Bool.false_eq_true]
    rw [if_pos hgas]
  · intro hgas m' r hstep
    unfold Machine.step at hstep
    rw [h1] at hstep
    simp only [hne, if_false, h3, h4, h5, h6, Bool.false_eq_true] at hstep
    rw [if_neg hgas, hread] at hstep
    repeat' split at hstep
    all_goals try exact Option.noConfusion hstep
    all_goals (injection hstep with hinj; injection hinj with ha hb; subst ha; have hg := run_opcode_gas _ _ _ _ _ _ _ _ (by assumption); simp [hg.1, hg.2])

/-- The machine of the C5 witness: a single `JUMPDEST` (cost 1). -/
def c5machine : Machine := baseMachine [0x5b] [] 100 0

/-- The machine after one `step` of `c5machine`. -/
def c5result : Machine :=
  { c5machine with
    pc := { code := [0x5b], position := 1 },
    state := { c5machine.state with used_gas := 1 } }

/-- Witness for C5 on the non-exhausted side: running `JUMPDEST` adds
exactly its gas cost. -/
theorem step_gas_accounting_witness :
    ¬(c5machine.state.context.gas_limit <
        memory_gas (memory_cost .JUMPDEST c5machine.state)
        + c5machine.state.used_gas + gas_cost .JUMPDEST c5machine.state
        - gas_stipend .JUMPDEST c5machine.state) ∧
    c5machine.step h0 = some (c5result, none) ∧
    (c5result.state.used_gas = c5machine.state.used_gas
        + gas_cost .JUMPDEST c5machine.state
        - gas_stipend .JUMPDEST c5machine.state ∧
      c5result.state.memory_cost = memory_cost .JUMPDEST c5machine.state ∧
      c5result.state.refunded_gas = c5machine.state.refunded_gas
        + gas_refund .JUMPDEST c5machine.state) :=
  ⟨by decide, rfl,
   (step_gas_accounting h0 c5machine .JUMPDEST rfl (by decide) rfl rfl rfl
      rfl).2 (by decide) c5result none rfl⟩

/-- C6: the `after_gas` that `step` hands to the run phase is
`gas_limit − memory_gas(memory_cost') − used_gas − gas_cost + gas_stipend`
computed on the pre-state, and the `GAS` opcode pushes exactly that value
onto the stack. -/
theorem step_gas_pushes_after_gas (hash : List Nat → M256) (m : Machine)
    (h1 : m.status = .Running) (h2 : m.state.depth < 2)
    (h4 : m.pc.peek = .ok .GAS) (h5 : m.state.stack.length < 1024)
    (h6 : ¬(m.state.context.gas_limit < memory_gas (memory_cost .GAS m.state)
        + m.state.used_gas + gas_cost .GAS m.state - gas_stipend .GAS m.state)) :
    (m.step hash).isSome = true ∧
    ∀ m' r, m.step hash = some (m', r) →
      r = none ∧
      m'.state.stack =
        gasToM256 (m.state.context.gas_limit - memory_gas (memory_cost .GAS m.state)
          - m.state.used_gas - gas_cost .GAS m.state + gas_stipend .GAS m.state)
          :: m.state.stack := by
  obtain ⟨nxt, hdec⟩ : ∃ nxt,
      decodeAt m.pc.code m.pc.position = .ok (.GAS, nxt) := by
    unfold PC.peek at h4
    rcases hd : decodeAt m.pc.code m.pc.position with e | p
    · rw [hd] at h4
      cases h4
    · obtain ⟨i2, nx⟩ := p
      rw [hd] at h4
      simp [Except.map] at h4
      exact ⟨nx, by rw [h4]⟩
  have hread : m.pc.read = some (.GAS, { m.pc with position := nxt }) := by
    simp [PC.read, hdec]
  have h3 : m.pc.is_end = false := by
    obtain ⟨b, hb⟩ : ∃ b, m.pc.code.get? m.pc.position = some b := by
      unfold decodeAt at hdec
      rcases hg : m.pc.code.get? m.pc.position with _ | b
      · rw [hg] at hdec
        cases hdec
      · exact ⟨b, rfl⟩
    have hlt := List.get?_eq_some.mp hb
    obtain ⟨hlt, -⟩ := hlt
    simp [PC.is_end]
    omega
  have hco : check_opcode .GAS m.state = .ok none := by
    unfold check_opcode
    rw [if_neg (by simp [stackConsumed]),
      if_neg (by simp [stackConsumed, stackProduced]; omega)]
  have hcheck : m.check = .ok () := by
    unfold Machine.check
    rw [h4]
    simp [hco]
  have hne : ¬ m.state.depth ≥ 2 := by omega
  have hpush : ¬ m.state.stack.length ≥ 1024 := by omega
  have hstep_eq : m.step hash =
      some ({ m with
              pc := { code := m.pc.code, position := nxt },
              state := { m.state with
                         stack := gasToM256 (m.state.context.gas_limit
                             - memory_gas (memory_cost .GAS m.state)
                             - m.state.used_gas - gas_cost .GAS m.state
                             + gas_stipend .GAS m.state) :: m.state.stack,
                         used_gas := m.state.used_gas + gas_cost .GAS m.state
                           - gas_stipend .GAS m.state,
                         memory_cost := memory_cost .GAS m.state,
                         refunded_gas := m.state.refunded_gas
                           + gas_refund .GAS m.state } }, none) := by
    unfold Machine.step
    rw [h1]
    simp only [hne, if_false, h3, Bool.false_eq_true, hcheck, h4,
      extra_check_opcode]
    rw [if_neg h6, hread]
    simp [run_opcode, State.push1, Stack.push, hpush]
  refine ⟨by rw [hstep_eq]; rfl, ?_⟩
  intro m' r hstep
  rw [hstep_eq] at hstep
  injection hstep with hinj
  injection hinj with ha hb
  subst ha
  subst hb
  exact ⟨rfl, rfl⟩

/-- The machine of the C6 witness: a single `GAS` opcode (cost 2) under a
gas limit of 100, so `after_gas = 100 − 0 − 0 − 2 + 0 = 98`. -/
def c6machine : Machine := baseMachine [0x5a] [] 100 0

/-- The machine after one `step` of `c6machine`: 98 is on the stack. -/
def c6result : Machine :=
  { c6machine with
    pc := { code := [0x5a], position := 1 },
    state := { c6machine.state with stack := [98], used_gas := 2 } }

/-- Witness for C6. -/
theorem step_gas_pushes_after_gas_witness :
    (c6machine.step h0).isSome = true ∧
    c6machine.step h0 = some (c6result, none) ∧
    ((none : Option RequireError) = none ∧
      c6result.state.stack =
        gasToM256 (c6machine.state.context.gas_limit
          - memory_gas (memory_cost .GAS c6machine.state)
          - c6machine.state.used_gas - gas_cost .GAS c6machine.state
          + gas_stipend .GAS c6machine.state) :: c6machine.state.stack) :=
  ⟨(step_gas_pushes_after_gas h0 c6machine rfl (by decide) rfl (by decide)
      (by decide)).1,
   rfl,
   (step_gas_pushes_after_gas h0 c6machine rfl (by decide) rfl (by decide)
      (by decide)).2 c6result none rfl⟩

end SputnikVM
